import Mathlib

/-!
Verification development for the PLU_Analyzer regulation-text extraction
pipeline (TypeScript sources: `src/services/pdf-extractor/plu-extractor.service.ts`
and `src/services/pdf-extractor/patterns/french-plu-patterns.ts`).

The embedding is shallow.  Pure numeric/string logic of the source is
translated directly into executable Lean functions over `String` and `ℚ`
(JavaScript `number` is modelled by `ℚ`; all arithmetic performed by the
relevant code paths is exact on the values involved).  JavaScript regular
expression calls are modelled by oracle parameters holding the list of match
strings (or captured groups) the corresponding `text.match` / `text.matchAll`
call returns; everything downstream of the regex engine (number parsing,
validation, normalisation, dedup, scoring, control flow) is translated from
the source.  Concrete oracle instantiations used in witnesses and
counterexamples carry comments stating the regex and subject text they
hand-trace.  I/O-performing steps of the orchestrator (PDF download, text
extraction, the generative endpoint, the Redis cache) are modelled by
environment records giving the outcome of each outbound call; the cache is
threaded explicitly as state.
-/

namespace PLU

/-! ### JavaScript string primitives

Character-level helpers mirroring the JavaScript operations used by the
source: ASCII case folding (`RegExp(word, "i").test(text)` on the
alphabetic keywords used by the source is a case-insensitive substring
test), digit scanning for the regex `/(\d+(?:\.\d+)?)/`, and `parseFloat`
on the tokens that scanner produces. -/

def isDigitChar (c : Char) : Bool := decide ('0' ≤ c ∧ c ≤ '9')

def lowerChar (c : Char) : Char :=
  if 'A' ≤ c ∧ c ≤ 'Z' then Char.ofNat (c.toNat + 32) else c

def isPrefixC : List Char → List Char → Bool
  | [], _ => true
  | _ :: _, [] => false
  | a :: as, b :: bs => a = b && isPrefixC as bs

def isInfixC (needle : List Char) : List Char → Bool
  | [] => isPrefixC needle []
  | b :: bs => isPrefixC needle (b :: bs) || isInfixC needle bs

/-- Case-insensitive substring test: the semantics of
`new RegExp(keyword, "i").test(text)` for a keyword with no regex
metacharacters (all keywords the source uses are plain words). -/
def strContainsCI (hay needle : String) : Bool :=
  isInfixC (needle.data.map lowerChar) (hay.data.map lowerChar)

/-- Maximal digit prefix of a character list, with the remainder. -/
def takeDigits : List Char → List Char × List Char
  | [] => ([], [])
  | c :: cs =>
    if isDigitChar c then
      let p := takeDigits cs
      (c :: p.1, p.2)
    else ([], c :: cs)

/-- Fuelled left-to-right scan returning every match of the JavaScript regex
`/(\d+(?:\.\d+)?)/g`: maximal digit runs, each optionally extended by a dot
followed by a further digit run.  The fuel is the character count, which
bounds the number of scanning steps. -/
def scanNumbers : Nat → List Char → List (List Char)
  | 0, _ => []
  | _ + 1, [] => []
  | fuel + 1, c :: cs =>
    if isDigitChar c then
      let p := takeDigits (c :: cs)
      match p.2 with
      | '.' :: d :: rest =>
        if isDigitChar d then
          let q := takeDigits (d :: rest)
          (p.1 ++ '.' :: q.1) :: scanNumbers fuel q.2
        else p.1 :: scanNumbers fuel ('.' :: d :: rest)
      | r => p.1 :: scanNumbers fuel r
    else scanNumbers fuel cs

/-- All matches of `/(\d+(?:\.\d+)?)/g` in a string, as strings. -/
def jsAllNumbers (s : String) : List String :=
  (scanNumbers s.data.length s.data).map String.mk

/-- First match of `/(\d+(?:\.\d+)?)/` in a string (the capture used by
`extractNumericValue` in the source). -/
def jsFirstNumber (s : String) : Option String :=
  (jsAllNumbers s).head?

def digitsToNat (l : List Char) : Nat :=
  l.foldl (fun n c => n * 10 + (c.toNat - '0'.toNat)) 0

/-- Split a character list at the first dot, if any. -/
def splitAtDot : List Char → List Char × Option (List Char)
  | [] => ([], none)
  | c :: rest =>
    if c = '.' then ([], some rest)
    else
      let p := splitAtDot rest
      (c :: p.1, p.2)

/-- Exact value of JavaScript `parseFloat` on the decimal tokens produced by
`jsFirstNumber` / `jsAllNumbers` (shape: digits, optionally a dot and more
digits).  On any other input it returns `none`, modelling `NaN`. -/
def parseDec (s : String) : Option ℚ :=
  match splitAtDot s.data with
  | (intPart, none) =>
    if intPart ≠ [] ∧ intPart.all isDigitChar then some ((digitsToNat intPart : ℚ)) else none
  | (intPart, some frac) =>
    if intPart ≠ [] ∧ frac ≠ [] ∧ intPart.all isDigitChar ∧ frac.all isDigitChar then
      some ((digitsToNat intPart : ℚ) + (digitsToNat frac : ℚ) / ((10 : ℚ) ^ frac.length))
    else none

/-- JavaScript `usage.charAt(0).toUpperCase() + usage.slice(1)` (ASCII). -/
def jsCapitalize (s : String) : String :=
  match s.data with
  | [] => ""
  | c :: rest =>
    String.mk ((if 'a' ≤ c ∧ c ≤ 'z' then Char.ofNat (c.toNat - 32) else c) :: rest)

/-- JavaScript `toUpperCase` restricted to ASCII (zone codes are ASCII). -/
def upperStr (s : String) : String :=
  String.mk (s.data.map (fun c => if 'a' ≤ c ∧ c ≤ 'z' then Char.ofNat (c.toNat - 32) else c))

/-! ### Numeric field extraction (`plu-extractor.service.ts`)

`extractNumericValue`, `extractPercentage` and the parking-ratio extractor
operate on the arrays returned by `text.match(pattern)` for each regex in
their pattern list.  The embedding takes those arrays as input, one list of
match strings per regex (`[]` standing for a `null` match result), and
translates the loop bodies literally. -/

/-- Inner loop of `extractNumericValue`: first match string whose first
number parses to a value `v` with `0 < v < 1000` (the source comment calls
this range "Valeurs raisonnables"). -/
def findValidNum : List String → Option ℚ
  | [] => none
  | m :: rest =>
    match jsFirstNumber m with
    | none => findValidNum rest
    | some numStr =>
      match parseDec numStr with
      | none => findValidNum rest
      | some v => if 0 < v ∧ v < 1000 then some v else findValidNum rest

/-- Source `extractNumericValue(text, patterns)`: patterns are tried in
order; the first match over all patterns carrying an in-range number wins. -/
def extractNumericValue : List (List String) → Option ℚ
  | [] => none
  | ms :: rest =>
    match findValidNum ms with
    | some v => some v
    | none => extractNumericValue rest

/-- Source `extractPercentage`: reuses `extractNumericValue`, then divides
by 100 exactly when the extracted value exceeds 1. -/
def extractPercentage (matchLists : List (List String)) : Option ℚ :=
  match extractNumericValue matchLists with
  | some v => some (if v > 1 then v / 100 else v)
  | none => none

/-- Inner loop of `extractStationnementRatio`: first match string containing
at least two numbers with a positive second number yields places / surface. -/
def findValidRatioNum : List String → Option ℚ
  | [] => none
  | m :: rest =>
    match jsAllNumbers m with
    | n0 :: n1 :: _ =>
      match parseDec n0, parseDec n1 with
      | some places, some surface =>
        if surface > 0 then some (places / surface) else findValidRatioNum rest
      | _, _ => findValidRatioNum rest
    | _ => findValidRatioNum rest

/-- Source `extractStationnementRatio(text, patterns)` (places per square
metre); the name carries a `Val` suffix in this development. -/
def extractStationnementRatioVal : List (List String) → Option ℚ
  | [] => none
  | ms :: rest =>
    match findValidRatioNum ms with
    | some v => some v
    | none => extractStationnementRatioVal rest

/-! ### Use-type and source-article extraction -/

/-- Fixed vocabulary scanned by `extractUsages` in the source. -/
def usageTypes : List String :=
  ["habitation", "logement", "bureau", "bureaux", "commerce", "commerces",
   "artisanat", "industrie", "industriel", "entrepôt", "entrepôts",
   "équipement public", "hébergement hôtelier", "restaurant", "hôtel"]

/-- Source `extractUsages(text, type)`.  The section regexes for the chosen
intent are modelled by their match lists (one list of matched section
strings per regex); within each matched section the fixed vocabulary is
tested case-insensitively and labels are pushed without duplicates. -/
def extractUsages (sectionMatches : List (List String)) : List String :=
  sectionMatches.foldl (fun acc ms =>
    ms.foldl (fun acc m =>
      usageTypes.foldl (fun acc u =>
        if strContainsCI m u then
          (if acc.contains u then acc else acc ++ [u])
        else acc) acc) acc) []

/-- Source `extractSourceArticles(text, zone)`: the oracle supplies the
group-1 captures of `/Article\s+(\w+\d*\w*)/i` on each match of the
zone-article regex; the function keeps them without duplicates. -/
def extractSourceArticles (captures : List String) : List String :=
  captures.foldl (fun acc c => if acc.contains c then acc else acc ++ [c]) []

/-! ### The rule record (`DetailedPLUAnalysis`) -/

/-- Source interface `DetailedPLUAnalysis` (JavaScript `number | null`
becomes `Option ℚ`, `boolean | null` becomes `Option Bool`). -/
structure DetailedPLUAnalysis where
  zone : String
  hauteurMaximale : Option ℚ
  nombreEtagesMax : Option ℚ
  hauteurAuFaitage : Option ℚ
  hauteurAcrotere : Option ℚ
  empriseAuSolMax : Option ℚ
  coefficientOccupationSol : Option ℚ
  coefficientEspacesVerts : Option ℚ
  reculVoirie : Option ℚ
  reculLimitesSeparatives : Option ℚ
  implantationSurLimite : Option Bool
  stationnementHabitation : Option ℚ
  stationnementBureaux : Option ℚ
  stationnementCommerce : Option ℚ
  usagesAutorises : List String
  usagesInterdits : List String
  usagesConditionnes : List String
  materiaux : List String
  couleurs : List String
  toitures : List String
  ouvertures : List String
  plantationsObligatoires : List String
  essencesVegetales : List String
  espacesLibresMin : Option ℚ
  confidence : ℚ
  sourceArticles : List String
  lastUpdated : String
  restrictions : List String
  rights : List String
deriving DecidableEq, Repr

/-! ### Confidence (`calculateTraditionalConfidence`) -/

/-- Quality keywords tested against the zone text in
`calculateTraditionalConfidence`. -/
def qualityKeywords : List String :=
  ["article", "construction", "hauteur", "emprise", "zone"]

/-- Number of quality keywords present (case-insensitively) in a text. -/
def qualityKeywordCount (text : String) : Nat :=
  (qualityKeywords.filter (fun k => strContainsCI text k)).length

/-- The five core numeric fields iterated by the `numericFields` array in
`calculateTraditionalConfidence`. -/
def numericFieldValues (analysis : DetailedPLUAnalysis) : List (Option ℚ) :=
  [analysis.hauteurMaximale, analysis.nombreEtagesMax, analysis.empriseAuSolMax,
   analysis.reculVoirie, analysis.stationnementHabitation]

/-- Source `calculateTraditionalConfidence(analysis, text)`: 0.1 of score
per populated core field, 0.2 for any non-empty use-list, 0.1 for source
articles, a keyword bonus `min(keywordCount * 0.05, 0.2)`, against an
accumulated `maxScore`; the result is `min(score / maxScore, 1)` when
`maxScore > 0`. -/
def calculateTraditionalConfidence (analysis : DetailedPLUAnalysis) (text : String) : ℚ :=
  let fieldStep := (numericFieldValues analysis).foldl
      (fun (p : ℚ × ℚ) v => (if v.isSome then p.1 + 1/10 else p.1, p.2 + 1/10)) (0, 0)
  let score1 := fieldStep.1
  let maxScore1 := fieldStep.2
  let score2 :=
    if analysis.usagesAutorises.length > 0 ∨ analysis.usagesInterdits.length > 0 then
      score1 + 1/5 else score1
  let maxScore2 := maxScore1 + 1/5
  let score3 := if analysis.sourceArticles.length > 0 then score2 + 1/10 else score2
  let maxScore3 := maxScore2 + 1/10
  let qualityBonus := min ((qualityKeywordCount text : ℚ) * (1/20)) (1/5)
  let score4 := score3 + qualityBonus
  let maxScore4 := maxScore3 + 1/5
  if maxScore4 > 0 then min (score4 / maxScore4) 1 else 0

/-! ### API format conversion (`convertToApiFormat`) -/

/-- JavaScript truthiness of a nullable number (`null` and `0` are falsy). -/
def truthyQ : Option ℚ → Bool
  | some v => decide (v ≠ 0)
  | none => false

/-- Source `convertToApiFormat(analysis)`: formats each truthy numeric field
and each use label into a sentence, then appends two fixed generic
sentences to either list that still has fewer than 2 entries. -/
def convertToApiFormat (analysis : DetailedPLUAnalysis) : List String × List String :=
  let restrictions :=
    (if truthyQ analysis.hauteurMaximale then
      ["Hauteur maximale : " ++ toString (analysis.hauteurMaximale.getD 0) ++ " mètres"]
     else []) ++
    (if truthyQ analysis.nombreEtagesMax then
      ["Nombre d\u0027étages maximum : R+" ++ toString (analysis.nombreEtagesMax.getD 0)]
     else []) ++
    (if truthyQ analysis.empriseAuSolMax then
      let e := analysis.empriseAuSolMax.getD 0
      let percentage := if e > 1 then e else e * 100
      ["Emprise au sol maximale : " ++ toString percentage ++ "%"]
     else []) ++
    (if truthyQ analysis.reculVoirie then
      ["Recul minimum voirie : " ++ toString (analysis.reculVoirie.getD 0) ++ " mètres"]
     else []) ++
    (if truthyQ analysis.reculLimitesSeparatives then
      ["Recul limites séparatives : " ++ toString (analysis.reculLimitesSeparatives.getD 0) ++ " mètres"]
     else []) ++
    (if truthyQ analysis.stationnementHabitation then
      ["Stationnement : " ++ toString (analysis.stationnementHabitation.getD 0) ++ " place(s) par logement"]
     else []) ++
    analysis.usagesInterdits.map (fun u => jsCapitalize u ++ " interdit")
  let rights := analysis.usagesAutorises.map (fun u => jsCapitalize u ++ " autorisé")
  let restrictions2 :=
    if restrictions.length < 2 then
      restrictions ++ ["Respecter le règlement de zone en vigueur",
                       "Déclaration préalable ou permis requis selon les travaux"]
    else restrictions
  let rights2 :=
    if rights.length < 2 then
      rights ++ ["Constructions autorisées selon le zonage",
                 "Aménagements conformes au PLU autorisés"]
    else rights
  (restrictions2, rights2)

/-! ### The deterministic extractor (`extractWithTraditionalMethod`) -/

/-- Oracle holding, for each regex pattern list used by
`extractWithTraditionalMethod`, the match strings returned by
`text.match(...)` on the zone text (`[]` for a `null` result), the matched
section strings for the three use-intent extractions, the article captures,
and the `new Date().toISOString()` timestamp. -/
structure TraditionalMatchOracle where
  hauteurMatches : List (List String)
  hauteurFaitageMatches : List (List String)
  etagesMatches : List (List String)
  empriseMatches : List (List String)
  cosMatches : List (List String)
  reculVoirieMatches : List (List String)
  reculLimitesMatches : List (List String)
  stationnementHabMatches : List (List String)
  stationnementBurMatches : List (List String)
  stationnementComMatches : List (List String)
  usagesAutoriseSections : List (List String)
  usagesInterditSections : List (List String)
  usagesConditionneSections : List (List String)
  espacesVertsMatches : List (List String)
  espacesLibresMatches : List (List String)
  sourceArticleCaptures : List String
  nowIso : String

/-- Source `extractWithTraditionalMethod(text, zone)`: builds the rule
record field by field from the pattern extractions, computes the
confidence from the populated record and the zone text, and derives the
`restrictions` / `rights` sentence lists via `convertToApiFormat`. -/
def extractWithTraditionalMethod (o : TraditionalMatchOracle) (text zone : String) :
    DetailedPLUAnalysis :=
  let base : DetailedPLUAnalysis := {
    zone := zone
    hauteurMaximale := extractNumericValue o.hauteurMatches
    nombreEtagesMax := extractNumericValue o.etagesMatches
    hauteurAuFaitage := extractNumericValue o.hauteurFaitageMatches
    hauteurAcrotere := none
    empriseAuSolMax := extractPercentage o.empriseMatches
    coefficientOccupationSol := extractNumericValue o.cosMatches
    coefficientEspacesVerts := extractPercentage o.espacesVertsMatches
    reculVoirie := extractNumericValue o.reculVoirieMatches
    reculLimitesSeparatives := extractNumericValue o.reculLimitesMatches
    implantationSurLimite := none
    stationnementHabitation := extractNumericValue o.stationnementHabMatches
    stationnementBureaux := extractStationnementRatioVal o.stationnementBurMatches
    stationnementCommerce := extractStationnementRatioVal o.stationnementComMatches
    usagesAutorises := extractUsages o.usagesAutoriseSections
    usagesInterdits := extractUsages o.usagesInterditSections
    usagesConditionnes := extractUsages o.usagesConditionneSections
    materiaux := []
    couleurs := []
    toitures := []
    ouvertures := []
    plantationsObligatoires := []
    essencesVegetales := []
    espacesLibresMin := extractPercentage o.espacesLibresMatches
    confidence := 0
    sourceArticles := extractSourceArticles o.sourceArticleCaptures
    lastUpdated := o.nowIso
    restrictions := []
    rights := [] }
  let withConf := { base with confidence := calculateTraditionalConfidence base text }
  let api := convertToApiFormat withConf
  { withConf with restrictions := api.1, rights := api.2 }

/-! ### The pattern library (`french-plu-patterns.ts`)

`applyPattern(text, pattern)` iterates the regexes of a pattern spec with
`text.matchAll`, keeps matches whose group 1 is truthy, trims the capture,
applies the optional transformer (a thrown exception skips the candidate),
applies the optional validator, then sorts the surviving candidates by the
spec priority (descending, JavaScript sort being stable) and keeps the
first 5.  Regexes are modelled by their `matchAll` semantics; the
dynamically-typed candidate values by `JsVal`. -/

/-- A dynamically typed JavaScript value as used by the pattern library
(`any`): a string capture or a transformed number. -/
inductive JsVal where
  | str (s : String)
  | num (q : ℚ)
deriving DecidableEq, Repr

/-- One element of a `matchAll` result: the whole match and group 1
(`none` when the group did not participate). -/
structure JsMatch where
  whole : String
  group1 : Option String
deriving DecidableEq, Repr

/-- Source interface `ExtractionPattern`, with each `RegExp` replaced by
its `matchAll` semantics on the subject text.  A transformer returning
`none` models a thrown exception (caught by `applyPattern`). -/
structure ExtractionPattern where
  name : String
  patterns : List (String → List JsMatch)
  priority : ℚ
  validator : Option (JsVal → Bool)
  transformer : Option (JsVal → Option JsVal)

/-- A candidate pushed by `applyPattern`: value, whole matched span, index
of the regex that matched, and the spec priority. -/
structure Candidate where
  value : JsVal
  matched : String
  patternIndex : Nat
  priority : ℚ
deriving DecidableEq

/-- JavaScript `String.prototype.trim` (ASCII whitespace suffices for the
captures involved). -/
def jsTrim (s : String) : String :=
  let ws : Char → Bool := fun c => c = ' ' ∨ c = '\t' ∨ c = '\n' ∨ c = '\r'
  String.mk ((s.data.dropWhile ws).reverse.dropWhile ws |>.reverse)

/-- Transformer application of `applyPattern`: applied only when declared,
the identity otherwise; `none` models a caught exception. -/
def transformStep (p : ExtractionPattern) (v0 : JsVal) : Option JsVal :=
  match p.transformer with
  | some t => t v0
  | none => some v0

/-- Validation of `applyPattern`: `pattern.validator && !pattern.validator(value)`
discards the candidate, so an undeclared validator accepts everything. -/
def validateStep (p : ExtractionPattern) (v : JsVal) : Bool :=
  match p.validator with
  | some va => va v
  | none => true

/-- Body of the `matchAll` loop of `applyPattern` for one match of the
regex at `idx`: `none` when the candidate is discarded. -/
def candidateOfMatch (p : ExtractionPattern) (idx : Nat) (m : JsMatch) : Option Candidate :=
  match m.group1 with
  | none => none
  | some g =>
    if g = "" then none
    else
      match transformStep p (JsVal.str (jsTrim g)) with
      | none => none
      | some v =>
        if validateStep p v then some ⟨v, m.whole, idx, p.priority⟩ else none

/-- The `results` array of `applyPattern` before sorting: all surviving
candidates in regex-declaration order, then match order. -/
def collectCandidates (text : String) (p : ExtractionPattern) : List Candidate :=
  p.patterns.enum.foldl (fun acc ir =>
    acc ++ ((ir.2 text).filterMap (candidateOfMatch p ir.1))) []

/-- Stable insertion placing a candidate after every candidate of priority
at least its own (the unique stable sort for the comparator
`(a, b) => b.priority - a.priority`). -/
def insertDesc (c : Candidate) : List Candidate → List Candidate
  | [] => [c]
  | b :: l => if b.priority < c.priority then c :: b :: l else b :: insertDesc c l

/-- JavaScript `results.sort((a, b) => b.priority - a.priority)`
(`Array.prototype.sort` is stable). -/
def sortByPriorityDesc (l : List Candidate) : List Candidate :=
  l.foldl (fun acc c => insertDesc c acc) []

/-- Source `applyPattern(text, pattern)`. -/
def applyPattern (text : String) (p : ExtractionPattern) : List Candidate :=
  (sortByPriorityDesc (collectCandidates text p)).take 5

/-! ### Zone location (`findZoneSection`)

The three zone-heading regexes are built from the zone code at run time;
they are modelled by the first-match string each `text.match` call yields
(`none` for a `null` result — for the global second pattern, element 0 of
the array).  The fallback `Article <zone>...` regex is modelled by its full
match list. -/

structure ZoneSectionMatches where
  patternFirstMatches : List (Option String)
  articleMatches : List String

/-- Loop over the three heading patterns: first match longer than 200
characters wins. -/
def findZonePatternLoop : List (Option String) → Option String
  | [] => none
  | none :: rest => findZonePatternLoop rest
  | some s :: rest => if 200 < s.length then some s else findZonePatternLoop rest

/-- Source `findZoneSection(text, zone)`: heading patterns first, then the
article-concatenation fallback (joined with a blank line, with no length
threshold), otherwise the empty string. -/
def findZoneSection (o : ZoneSectionMatches) : String :=
  match findZonePatternLoop o.patternFirstMatches with
  | some s => s
  | none =>
    if o.articleMatches.length > 0 then String.intercalate "\n\n" o.articleMatches
    else ""

/-! ### The extraction orchestrator (`extractFromPDF`)

Outbound calls are modelled by an environment: the combined outcome of
`downloadPDF` + `extractTextFromPDF`, the regex oracle for
`findZoneSection`, and the outcomes of the deterministic and generative
extractors as functions of the zone text.  The Redis entry for the
`(pdfUrl, zone)` cache key is threaded as explicit state; the JSON
round-trip through the cache is the identity on the record.  Timeouts and
metrics do not affect the returned value and are not modelled. -/

/-- Source `ExtractionOptions` (the `timeout` member does not influence
control flow in the model).  `useAI` is optional in the source and the
fallback is gated on `options.useAI !== false`. -/
structure ExtractionOptions where
  forceRefresh : Bool
  useAI : Option Bool

/-- Method tags recorded by the orchestrator. -/
inductive ExtractionMethod where
  | cache
  | traditional
  | ai
deriving DecidableEq, Repr

/-- Typed rendering of the errors `extractFromPDF` throws. -/
inductive OrchestratorError where
  | downloadOrText (msg : String)
  | zoneNotFound (zone : String)
  | traditionalFailed (msg : String)
  | bothMethodsFailed
deriving DecidableEq, Repr

/-- Environment of one orchestrator request. -/
structure OrchestratorEnv where
  redisAvailable : Bool
  pdfText : Except String String
  zoneMatches : ZoneSectionMatches
  traditional : String → Except String DetailedPLUAnalysis
  aiExtract : String → Except String DetailedPLUAnalysis

/-- Result of one orchestrator request: the outcome, whether the
generative fallback was invoked, and the cache entry afterwards. -/
structure ExtractionOutcome where
  result : Except OrchestratorError (DetailedPLUAnalysis × ExtractionMethod)
  aiCalled : Bool
  cacheAfter : Option DetailedPLUAnalysis

/-- Cache write of step 8: `if (this.redis && analysis.confidence > 0.6)`. -/
def cacheWriteGate (redis : Bool) (a : DetailedPLUAnalysis)
    (cache : Option DetailedPLUAnalysis) : Option DetailedPLUAnalysis :=
  if redis ∧ a.confidence > 3/5 then some a else cache

/-- Source `extractFromPDF(pdfUrl, zone, options)` against an environment
and the current cache entry for the `(pdfUrl, zone)` key. -/
def extractFromPDF (pdfUrl zone : String) (opts : ExtractionOptions)
    (env : OrchestratorEnv) (cache : Option DetailedPLUAnalysis) : ExtractionOutcome :=
  let _ := pdfUrl
  match (if ¬opts.forceRefresh ∧ env.redisAvailable then cache else none) with
  | some c => ⟨.ok (c, .cache), false, cache⟩
  | none =>
    match env.pdfText with
    | .error e => ⟨.error (.downloadOrText e), false, cache⟩
    | .ok _ =>
      let zoneText := findZoneSection env.zoneMatches
      if zoneText = "" ∨ zoneText.length < 100 then
        ⟨.error (.zoneNotFound zone), false, cache⟩
      else
        match env.traditional zoneText with
        | .ok analysis =>
          ⟨.ok (analysis, .traditional), false,
           cacheWriteGate env.redisAvailable analysis cache⟩
        | .error e =>
          if opts.useAI ≠ some false then
            match env.aiExtract zoneText with
            | .ok analysis =>
              ⟨.ok (analysis, .ai), true,
               cacheWriteGate env.redisAvailable analysis cache⟩
            | .error _ => ⟨.error .bothMethodsFailed, true, cache⟩
          else ⟨.error (.traditionalFailed e), false, cache⟩

/-- Two successive orchestrator calls with identical arguments, the cache
key starting empty and the entry written by the first call visible to the
second. -/
def extractTwice (pdfUrl zone : String) (opts : ExtractionOptions)
    (env : OrchestratorEnv) : ExtractionOutcome × ExtractionOutcome :=
  let r1 := extractFromPDF pdfUrl zone opts env none
  let r2 := extractFromPDF pdfUrl zone opts env r1.cacheAfter
  (r1, r2)

/-! ### Multi-zone extraction (`extractAllZones` / `detectAllZones`) -/

/-- Group-1 captures of the three zone-detection regexes, in `matchAll`
order per regex. -/
structure ZoneDetectMatches where
  captures : List (List String)

/-- Body of the `zones.add` loop: a truthy capture of at most 4 characters
is upper-cased and inserted if not already present (JavaScript `Set`
keeps first insertions). -/
def addZone (acc : List String) (m : String) : List String :=
  if m ≠ "" ∧ m.length ≤ 4 then
    (if acc.contains (upperStr m) then acc else acc ++ [upperStr m])
  else acc

/-- Character-wise comparison of strings by code point, the order of the
default JavaScript `Array.prototype.sort` on these codes. -/
def charsLe : List Char → List Char → Bool
  | [], _ => true
  | _ :: _, [] => false
  | a :: as, b :: bs =>
    if a.val < b.val then true
    else if b.val < a.val then false
    else charsLe as bs

def insertStr (s : String) : List String → List String
  | [] => [s]
  | b :: l => if charsLe b.data s.data then b :: insertStr s l else s :: b :: l

/-- JavaScript `Array.from(zones).sort()`. -/
def jsSortStrings (l : List String) : List String :=
  l.foldl (fun acc s => insertStr s acc) []

/-- Source `detectAllZones(text)`. -/
def detectAllZones (o : ZoneDetectMatches) : List String :=
  jsSortStrings (o.captures.foldl (fun acc ms => ms.foldl addZone acc) [])

/-- Per-zone loop of `extractAllZones`: each zone is extracted once; a
failure is logged and skipped. -/
def extractZonesLoop (f : String → Except OrchestratorError DetailedPLUAnalysis) :
    List String → List DetailedPLUAnalysis
  | [] => []
  | z :: rest =>
    match f z with
    | .ok a => a :: extractZonesLoop f rest
    | .error _ => extractZonesLoop f rest

/-- Environment of a multi-zone request: the text-extraction outcome, the
zone-detection captures, and the per-zone outcome of the single-zone
orchestrator call (`extractFromPDF` with `forceRefresh: false`). -/
structure MultiZoneEnv where
  pdfText : Except String String
  detect : ZoneDetectMatches
  extractZone : String → Except OrchestratorError DetailedPLUAnalysis

/-- Source `extractAllZones(pdfUrl, options)`. -/
def extractAllZones (env : MultiZoneEnv) : Except String (List DetailedPLUAnalysis) :=
  match env.pdfText with
  | .error e => .error e
  | .ok _ => .ok (extractZonesLoop env.extractZone (detectAllZones env.detect))

/-! ## Lemmas about the numeric extractors -/

theorem findValidNum_range (ms : List String) (v : ℚ) (h : findValidNum ms = some v) :
    0 < v ∧ v < 1000 := by
  induction ms with
  | nil => simp [findValidNum] at h
  | cons m rest ih =>
    unfold findValidNum at h
    split at h
    · exact ih h
    · split at h
      · exact ih h
      · split at h
        · rename_i hw
          injection h with h
          exact h ▸ hw
        · exact ih h

theorem extractNumericValue_range (mls : List (List String)) (v : ℚ)
    (h : extractNumericValue mls = some v) : 0 < v ∧ v < 1000 := by
  induction mls with
  | nil => simp [extractNumericValue] at h
  | cons ms rest ih =>
    unfold extractNumericValue at h
    cases hf : findValidNum ms with
    | none => rw [hf] at h; exact ih h
    | some w =>
      rw [hf] at h
      injection h with h
      exact h ▸ findValidNum_range ms w hf

theorem extractPercentage_range (mls : List (List String)) (v : ℚ)
    (h : extractPercentage mls = some v) : 0 < v ∧ v < 10 := by
  unfold extractPercentage at h
  cases he : extractNumericValue mls with
  | none => rw [he] at h; exact absurd h (by simp)
  | some w =>
    rw [he] at h
    injection h with h
    obtain ⟨hw0, hw1⟩ := extractNumericValue_range mls w he
    subst h
    by_cases hgt : w > 1
    · rw [if_pos hgt]
      constructor
      · positivity
      · linarith
    · rw [if_neg hgt]
      constructor
      · exact hw0
      · linarith

theorem parseDec_nonneg (s : String) (v : ℚ) (h : parseDec s = some v) : 0 ≤ v := by
  unfold parseDec at h
  split at h
  · split at h
    · injection h with h
      subst h
      positivity
    · exact absurd h (by simp)
  · split at h
    · injection h with h
      subst h
      positivity
    · exact absurd h (by simp)

theorem findValidRatioNum_nonneg (ms : List String) (v : ℚ)
    (h : findValidRatioNum ms = some v) : 0 ≤ v := by
  induction ms with
  | nil => simp [findValidRatioNum] at h
  | cons m rest ih =>
    unfold findValidRatioNum at h
    split at h
    · split at h
      · split at h
        · injection h with h
          subst h
          apply div_nonneg
          · exact parseDec_nonneg _ _ (by assumption)
          · exact le_of_lt (by assumption)
        · exact ih h
      · exact ih h
    · exact ih h

theorem extractStationnementRatioVal_nonneg (mls : List (List String)) (v : ℚ)
    (h : extractStationnementRatioVal mls = some v) : 0 ≤ v := by
  induction mls with
  | nil => simp [extractStationnementRatioVal] at h
  | cons ms rest ih =>
    unfold extractStationnementRatioVal at h
    cases hf : findValidRatioNum ms with
    | none => rw [hf] at h; exact ih h
    | some w =>
      rw [hf] at h
      injection h with h
      exact h ▸ findValidRatioNum_nonneg ms w hf

/-! ## Claim C1 -/

/-- Claim C1, amended.  Each numeric field of the record produced by the
deterministic extractor (`extractWithTraditionalMethod`) is either null or
within the range the extractor itself enforces, and out-of-range matches
are skipped rather than clamped; but that range is the uniform
`0 < v < 1000` of `extractNumericValue` (`0 < v < 10` after the
percentage division, `0 ≤ v` for the parking ratios), not the per-field
plausible ranges the claim states.  The pattern-library validators that
do declare those ranges (`HAUTEUR_PATTERNS` etc.) are never invoked by
this extractor. -/
theorem C1_range_amended (o : TraditionalMatchOracle) (text zone : String) :
    (∀ v, (extractWithTraditionalMethod o text zone).hauteurMaximale = some v → 0 < v ∧ v < 1000) ∧
    (∀ v, (extractWithTraditionalMethod o text zone).nombreEtagesMax = some v → 0 < v ∧ v < 1000) ∧
    (∀ v, (extractWithTraditionalMethod o text zone).hauteurAuFaitage = some v → 0 < v ∧ v < 1000) ∧
    (∀ v, (extractWithTraditionalMethod o text zone).coefficientOccupationSol = some v → 0 < v ∧ v < 1000) ∧
    (∀ v, (extractWithTraditionalMethod o text zone).reculVoirie = some v → 0 < v ∧ v < 1000) ∧
    (∀ v, (extractWithTraditionalMethod o text zone).reculLimitesSeparatives = some v → 0 < v ∧ v < 1000) ∧
    (∀ v, (extractWithTraditionalMethod o text zone).stationnementHabitation = some v → 0 < v ∧ v < 1000) ∧
    (∀ v, (extractWithTraditionalMethod o text zone).empriseAuSolMax = some v → 0 < v ∧ v < 10) ∧
    (∀ v, (extractWithTraditionalMethod o text zone).coefficientEspacesVerts = some v → 0 < v ∧ v < 10) ∧
    (∀ v, (extractWithTraditionalMethod o text zone).espacesLibresMin = some v → 0 < v ∧ v < 10) ∧
    (∀ v, (extractWithTraditionalMethod o text zone).stationnementBureaux = some v → 0 ≤ v) ∧
    (∀ v, (extractWithTraditionalMethod o text zone).stationnementCommerce = some v → 0 ≤ v) :=
  ⟨fun v h => extractNumericValue_range _ v h,
   fun v h => extractNumericValue_range _ v h,
   fun v h => extractNumericValue_range _ v h,
   fun v h => extractNumericValue_range _ v h,
   fun v h => extractNumericValue_range _ v h,
   fun v h => extractNumericValue_range _ v h,
   fun v h => extractNumericValue_range _ v h,
   fun v h => extractPercentage_range _ v h,
   fun v h => extractPercentage_range _ v h,
   fun v h => extractPercentage_range _ v h,
   fun v h => extractStationnementRatioVal_nonneg _ v h,
   fun v h => extractStationnementRatioVal_nonneg _ v h⟩

/-- Oracle for the deterministic extractor run on the zone text
`"hauteur de 500 mètres"`.  The first height regex
`/hauteur[^.]*?(\d+(?:\.\d+)?)\s*(mètres?|m\b)/gi` matches the whole
phrase (its single match string is the phrase itself); the second height
regex `/(\d+(?:\.\d+)?)\s*m[^a-z].*?(?:faîtage|maximum|hauteur)/gi` finds
no match because no keyword follows the metre mark, and no other field
regex matches the text at all, hence every other match list is empty. -/
def oC1 : TraditionalMatchOracle := {
  hauteurMatches := [["hauteur de 500 mètres"], []]
  hauteurFaitageMatches := [[], []]
  etagesMatches := [[], [], []]
  empriseMatches := [[], []]
  cosMatches := [[], []]
  reculVoirieMatches := [[], [], []]
  reculLimitesMatches := [[], []]
  stationnementHabMatches := [[], [], []]
  stationnementBurMatches := [[], []]
  stationnementComMatches := [[], []]
  usagesAutoriseSections := [[], []]
  usagesInterditSections := [[], []]
  usagesConditionneSections := [[], []]
  espacesVertsMatches := [[], []]
  espacesLibresMatches := [[], []]
  sourceArticleCaptures := []
  nowIso := "" }

/-- Claim C1, counterexample.  On zone text containing
`"hauteur de 500 mètres"` the deterministic extractor stores
`hauteurMaximale = 500` — far outside the claimed plausible range
`(0, 50]` — instead of leaving the field null as the claim requires:
the only validation applied is `0 < v < 1000`. -/
theorem C1_counterexample :
    (extractWithTraditionalMethod oC1 "hauteur de 500 mètres" "UB").hauteurMaximale
      = some 500 ∧ ¬ ((500 : ℚ) ≤ 50) :=
  ⟨by decide, by norm_num⟩

/-- Witness for `C1_range_amended` at the concrete oracle `oC1`: the
stored height 500 does satisfy the range the code actually enforces. -/
theorem C1_range_amended_witness : 0 < (500 : ℚ) ∧ (500 : ℚ) < 1000 :=
  (C1_range_amended oC1 "hauteur de 500 mètres" "UB").1 500 (by decide)

/-! ## Claim C2 -/

/-- Claim C2.  For every percentage-like extraction, a captured value
greater than 1 is divided by 100 and a captured value at most 1 is kept
as-is; on the match of `"emprise au sol ne peut excéder 40%"` (captured
value 40) and on the match of `"emprise au sol : 0.4 %"` (captured value
0.4) the stored fraction is 0.40 in both cases. -/
theorem C2_percentage_normalization :
    (∀ matchLists, extractPercentage matchLists =
        (extractNumericValue matchLists).map (fun v => if v > 1 then v / 100 else v)) ∧
    extractPercentage [["emprise au sol ne peut excéder 40%"]] = some (2/5) ∧
    extractPercentage [["emprise au sol : 0.4 %"]] = some (2/5) := by
  refine ⟨?_, ?_, ?_⟩
  · intro mls
    unfold extractPercentage
    cases extractNumericValue mls <;> rfl
  · have h40 : extractNumericValue [["emprise au sol ne peut excéder 40%"]] = some 40 := by
      decide
    have hgt : ((40 : ℚ) > 1) := by norm_num
    simp only [extractPercentage, h40, if_pos hgt]
    norm_num
  · have hs : jsFirstNumber "emprise au sol : 0.4 %" = some "0.4" := by decide
    have hd0 : digitsToNat ['0'] = 0 := by decide
    have hd4 : digitsToNat ['4'] = 4 := by decide
    have hsplit : splitAtDot "0.4".data = (['0'], some ['4']) := by decide
    have hq : parseDec "0.4" = some (2/5) := by
      simp only [parseDec, hsplit]
      rw [if_pos (by decide)]
      rw [hd0, hd4]
      norm_num
    have he : extractNumericValue [["emprise au sol : 0.4 %"]] = some (2/5) := by
      simp only [extractNumericValue, findValidNum, hs, hq]
      rw [if_pos (by norm_num : (0 : ℚ) < 2/5 ∧ (2/5 : ℚ) < 1000)]
    have hle : ¬ ((2/5 : ℚ) > 1) := by norm_num
    simp only [extractPercentage, he]
    rw [if_neg hle]

/-! ## Confidence: closed form and claims C3, C9 -/

theorem foldl_fieldScore (l : List (Option ℚ)) (s m : ℚ) :
    l.foldl (fun (p : ℚ × ℚ) v => (if v.isSome then p.1 + 1/10 else p.1, p.2 + 1/10)) (s, m)
      = (s + (l.countP Option.isSome : ℚ) * (1/10), m + (l.length : ℚ) * (1/10)) := by
  induction l generalizing s m with
  | nil => simp
  | cons a t ih =>
    rw [List.foldl_cons]
    cases ha : a.isSome
    · rw [if_neg (by simp [ha]), ih, List.countP_cons, List.length_cons, ha,
        if_neg (by simp : ¬ (false = true)), Nat.add_zero]
      simp only [Prod.mk.injEq]
      constructor <;> (push_cast ; try ring)
    · rw [if_pos (by simp [ha]), ih, List.countP_cons, List.length_cons, ha,
        if_pos (rfl : true = true)]
      simp only [Prod.mk.injEq]
      constructor <;> (push_cast ; try ring)

/-- Closed form of the source confidence computation: the accumulated
`maxScore` is the constant 1, so the returned value is the capped sum of
the component scores. -/
theorem calculateTraditionalConfidence_closed (a : DetailedPLUAnalysis) (t : String) :
    calculateTraditionalConfidence a t =
      min (((numericFieldValues a).countP Option.isSome : ℚ) * (1/10)
        + (if a.usagesAutorises.length > 0 ∨ a.usagesInterdits.length > 0 then (1/5 : ℚ) else 0)
        + (if a.sourceArticles.length > 0 then (1/10 : ℚ) else 0)
        + min ((qualityKeywordCount t : ℚ) * (1/20)) (1/5)) 1 := by
  have hlen : (numericFieldValues a).length = 5 := rfl
  simp only [calculateTraditionalConfidence, foldl_fieldScore, hlen]
  norm_num
  by_cases hu : a.usagesAutorises.length > 0 ∨ a.usagesInterdits.length > 0 <;>
    by_cases hs : a.sourceArticles.length > 0 <;>
      simp only [hu, hs, if_true, if_false, ite_true, ite_false] <;>
        (congr 1 ; ring)

/-- Oracle record with every field empty: the all-null analysis. -/
def emptyAnalysis : DetailedPLUAnalysis := {
  zone := "UB"
  hauteurMaximale := none
  nombreEtagesMax := none
  hauteurAuFaitage := none
  hauteurAcrotere := none
  empriseAuSolMax := none
  coefficientOccupationSol := none
  coefficientEspacesVerts := none
  reculVoirie := none
  reculLimitesSeparatives := none
  implantationSurLimite := none
  stationnementHabitation := none
  stationnementBureaux := none
  stationnementCommerce := none
  usagesAutorises := []
  usagesInterdits := []
  usagesConditionnes := []
  materiaux := []
  couleurs := []
  toitures := []
  ouvertures := []
  plantationsObligatoires := []
  essencesVegetales := []
  espacesLibresMin := none
  confidence := 0
  sourceArticles := []
  lastUpdated := ""
  restrictions := []
  rights := [] }

/-- Claim C3, counterexample.  A record with zero populated fields does
not have confidence 0 whenever the zone text contains a quality keyword:
for the all-null record and the text `"zone"` the structural bonus alone
gives confidence 1/20. -/
theorem C3_counterexample :
    calculateTraditionalConfidence emptyAnalysis "zone" = 1/20 ∧ (1/20 : ℚ) ≠ 0 := by
  have hk : qualityKeywordCount "zone" = 1 := by decide
  have hc : (numericFieldValues emptyAnalysis).countP Option.isSome = 0 := by decide
  constructor
  · rw [calculateTraditionalConfidence_closed, hk, hc]
    norm_num [emptyAnalysis]
  · norm_num

/-- Claim C3, amended.  The deterministic confidence equals 0.1 per
populated core numeric field, plus 0.2 if a use-list is non-empty, plus
0.1 if a source article was found, plus the structural-vocabulary bonus
`min(keywordCount * 0.05, 0.2)`, capped at 1.0; a record with zero
populated fields has confidence equal to that structural bonus — which is
0 only when the zone text contains none of the quality keywords, not
unconditionally as the claim states. -/
theorem C3_confidence_formula (a : DetailedPLUAnalysis) (t : String) :
    (calculateTraditionalConfidence a t =
       min (((numericFieldValues a).countP Option.isSome : ℚ) * (1/10)
         + (if a.usagesAutorises.length > 0 ∨ a.usagesInterdits.length > 0 then (1/5 : ℚ) else 0)
         + (if a.sourceArticles.length > 0 then (1/10 : ℚ) else 0)
         + min ((qualityKeywordCount t : ℚ) * (1/20)) (1/5)) 1)
    ∧ ((numericFieldValues a).countP Option.isSome = 0 → a.usagesAutorises = [] →
        a.usagesInterdits = [] → a.sourceArticles = [] →
        calculateTraditionalConfidence a t
          = min ((qualityKeywordCount t : ℚ) * (1/20)) (1/5)) := by
  refine ⟨calculateTraditionalConfidence_closed a t, fun h0 hu hi hs => ?_⟩
  rw [calculateTraditionalConfidence_closed, h0, hu, hi, hs]
  simp only [List.length_nil, gt_iff_lt, lt_irrefl, or_self, if_false, ite_false]
  rw [show ((0 : ℕ) : ℚ) * (1/10) + 0 + 0 + min ((qualityKeywordCount t : ℚ) * (1/20)) (1/5)
        = min ((qualityKeywordCount t : ℚ) * (1/20)) (1/5) by push_cast; ring]
  exact min_eq_left (le_trans (min_le_right _ _) (by norm_num))

/-- Witness for `C3_confidence_formula` at the all-null record and empty
text. -/
theorem C3_confidence_formula_witness :
    calculateTraditionalConfidence emptyAnalysis ""
      = min ((qualityKeywordCount "" : ℚ) * (1/20)) (1/5) :=
  (C3_confidence_formula emptyAnalysis "").2 (by decide) rfl rfl rfl

/-- Selector for the five core numeric fields of the confidence loop. -/
def coreFieldValue (a : DetailedPLUAnalysis) (i : Fin 5) : Option ℚ :=
  match i with
  | ⟨0, _⟩ => a.hauteurMaximale
  | ⟨1, _⟩ => a.nombreEtagesMax
  | ⟨2, _⟩ => a.empriseAuSolMax
  | ⟨3, _⟩ => a.reculVoirie
  | ⟨4, _⟩ => a.stationnementHabitation

/-- Populate one core numeric field of a record, leaving the rest alone:
the record produced by a run of the extractor on text in which one more
field matched successfully. -/
def setCoreField (a : DetailedPLUAnalysis) (i : Fin 5) (v : ℚ) : DetailedPLUAnalysis :=
  match i with
  | ⟨0, _⟩ => { a with hauteurMaximale := some v }
  | ⟨1, _⟩ => { a with nombreEtagesMax := some v }
  | ⟨2, _⟩ => { a with empriseAuSolMax := some v }
  | ⟨3, _⟩ => { a with reculVoirie := some v }
  | ⟨4, _⟩ => { a with stationnementHabitation := some v }

/-- Claim C9.  Populating one additional core numeric field of an
otherwise-identical record (same zone text) never decreases the computed
deterministic confidence. -/
theorem C9_confidence_monotone (a : DetailedPLUAnalysis) (t : String) (i : Fin 5) (v : ℚ)
    (h : coreFieldValue a i = none) :
    calculateTraditionalConfidence a t ≤ calculateTraditionalConfidence (setCoreField a i v) t := by
  rw [calculateTraditionalConfidence_closed, calculateTraditionalConfidence_closed]
  have husA : (setCoreField a i v).usagesAutorises = a.usagesAutorises := by
    fin_cases i <;> rfl
  have husI : (setCoreField a i v).usagesInterdits = a.usagesInterdits := by
    fin_cases i <;> rfl
  have hsa : (setCoreField a i v).sourceArticles = a.sourceArticles := by
    fin_cases i <;> rfl
  have hcount : (numericFieldValues a).countP Option.isSome ≤
      (numericFieldValues (setCoreField a i v)).countP Option.isSome := by
    fin_cases i <;>
      simp_all [numericFieldValues, setCoreField, coreFieldValue, List.countP_cons]
  rw [husA, husI, hsa]
  apply min_le_min _ le_rfl
  have hcast : ((numericFieldValues a).countP Option.isSome : ℚ) ≤
      ((numericFieldValues (setCoreField a i v)).countP Option.isSome : ℚ) := by
    exact_mod_cast hcount
  exact add_le_add (add_le_add (add_le_add
    (mul_le_mul_of_nonneg_right hcast (by norm_num)) le_rfl) le_rfl) le_rfl

/-- Witness for `C9_confidence_monotone`: populating the height field of
the all-null record does not decrease confidence. -/
theorem C9_confidence_monotone_witness :
    calculateTraditionalConfidence emptyAnalysis "" ≤
      calculateTraditionalConfidence (setCoreField emptyAnalysis 0 12) "" :=
  C9_confidence_monotone emptyAnalysis "" 0 12 rfl

/-! ## Claim C10 -/

theorem pad_length_ge_two (l pad : List String) (hpad : pad.length = 2) :
    2 ≤ (if l.length < 2 then l ++ pad else l).length := by
  by_cases h : l.length < 2
  · rw [if_pos h, List.length_append, hpad]
    omega
  · rw [if_neg h]
    omega

/-- Claim C10.  For every analysis record, the API-format conversion used
by both extraction paths yields a restrictions list and a rights list with
at least 2 entries each: when fewer sentences were generated from the
extracted values, the two fixed generic filler sentences are appended, so
the lists are non-empty even for a record with all numeric fields null and
all use-lists empty. -/
theorem C10_api_lists_have_two_entries (a : DetailedPLUAnalysis) :
    2 ≤ (convertToApiFormat a).1.length ∧ 2 ≤ (convertToApiFormat a).2.length :=
  ⟨pad_length_ge_two _ _ rfl, pad_length_ge_two _ _ rfl⟩

/-! ## Claim C6 -/

theorem candidateOfMatch_priority (p : ExtractionPattern) (idx : Nat) (m : JsMatch)
    (c : Candidate) (h : candidateOfMatch p idx m = some c) : c.priority = p.priority := by
  unfold candidateOfMatch at h
  split at h
  · exact absurd h (by simp)
  · split at h
    · exact absurd h (by simp)
    · split at h
      · exact absurd h (by simp)
      · split at h
        · injection h with h
          rw [← h]
        · exact absurd h (by simp)

theorem candidateOfMatch_validator (p : ExtractionPattern) (va : JsVal → Bool)
    (hva : p.validator = some va) (idx : Nat) (m : JsMatch) (c : Candidate)
    (h : candidateOfMatch p idx m = some c) : va c.value = true := by
  unfold candidateOfMatch at h
  split at h
  · exact absurd h (by simp)
  · split at h
    · exact absurd h (by simp)
    · split at h
      · exact absurd h (by simp)
      · split at h
        · rename_i hvalid
          injection h with h
          rw [← h]
          unfold validateStep at hvalid
          rw [hva] at hvalid
          exact hvalid
        · exact absurd h (by simp)

theorem collectCandidates_forall (p : ExtractionPattern) (text : String)
    (P : Candidate → Prop)
    (hP : ∀ idx m c, candidateOfMatch p idx m = some c → P c) :
    ∀ c ∈ collectCandidates text p, P c := by
  unfold collectCandidates
  generalize p.patterns.enum = l
  suffices h : ∀ (l : List (Nat × (String → List JsMatch))) (acc : List Candidate),
      (∀ c ∈ acc, P c) →
      ∀ c ∈ l.foldl (fun acc ir =>
        acc ++ ((ir.2 text).filterMap (candidateOfMatch p ir.1))) acc, P c by
    exact h l [] (by simp)
  intro l
  induction l with
  | nil => intro acc hacc; simpa using hacc
  | cons ir rest ih =>
    intro acc hacc
    rw [List.foldl_cons]
    apply ih
    intro c hc
    rcases List.mem_append.mp hc with h1 | h2
    · exact hacc c h1
    · obtain ⟨m, _, hm⟩ := List.mem_filterMap.mp h2
      exact hP ir.1 m c hm

theorem insertDesc_eq_append (c : Candidate) (l : List Candidate)
    (h : ∀ b ∈ l, ¬ (b.priority < c.priority)) : insertDesc c l = l ++ [c] := by
  induction l with
  | nil => rfl
  | cons b t ih =>
    unfold insertDesc
    rw [if_neg (h b (List.mem_cons_self b t)),
      ih (fun x hx => h x (List.mem_cons_of_mem b hx))]
    rfl

theorem sortByPriorityDesc_const (pr : ℚ) :
    ∀ (l acc : List Candidate), (∀ c ∈ l, c.priority = pr) → (∀ c ∈ acc, c.priority = pr) →
      l.foldl (fun acc c => insertDesc c acc) acc = acc ++ l := by
  intro l
  induction l with
  | nil => intro acc _ _; simp
  | cons c t ih =>
    intro acc hl hacc
    rw [List.foldl_cons,
      insertDesc_eq_append c acc (fun b hb => by
        rw [hacc b hb, hl c (List.mem_cons_self c t)]
        exact lt_irrefl pr),
      ih (acc ++ [c])
        (fun x hx => hl x (List.mem_cons_of_mem c hx))
        (fun x hx => by
          rcases List.mem_append.mp hx with h1 | h2
          · exact hacc x h1
          · rw [List.mem_singleton.mp h2]
            exact hl c (List.mem_cons_self c t))]
    simp

/-- Claim C6.  For every input text and pattern spec, `applyPattern`
returns at most 5 candidates; every returned candidate carries the
declared spec priority (there is a single declared priority per spec, so
the descending-priority order is the trivial one) and, when a validator is
declared, a value accepted by it; the result is exactly the first 5
candidates in discovery order (regex declaration order, then match order),
which is the unique stable descending sort; with no valid matches the
result is the empty list; and the function is total, hence never throws
(the only exception path of the source, a throwing transformer, is caught
and modelled by the transformer returning `none`). -/
theorem C6_applyPattern_contract (text : String) (p : ExtractionPattern) :
    applyPattern text p = (collectCandidates text p).take 5 ∧
    (applyPattern text p).length ≤ 5 ∧
    (applyPattern text p).Pairwise (fun x y => y.priority ≤ x.priority) ∧
    (∀ c ∈ applyPattern text p, c.priority = p.priority) ∧
    (∀ va, p.validator = some va → ∀ c ∈ applyPattern text p, va c.value = true) ∧
    (collectCandidates text p = [] → applyPattern text p = []) := by
  have hpr : ∀ c ∈ collectCandidates text p, c.priority = p.priority :=
    collectCandidates_forall p text _ (fun idx m c h => candidateOfMatch_priority p idx m c h)
  have hsort : sortByPriorityDesc (collectCandidates text p) = collectCandidates text p := by
    unfold sortByPriorityDesc
    rw [sortByPriorityDesc_const p.priority (collectCandidates text p) [] hpr (by simp)]
    rfl
  have htake : applyPattern text p = (collectCandidates text p).take 5 := by
    unfold applyPattern
    rw [hsort]
  have hmem : ∀ c ∈ applyPattern text p, c ∈ collectCandidates text p := by
    intro c hc
    rw [htake] at hc
    exact List.take_subset 5 _ hc
  refine ⟨htake, ?_, ?_, ?_, ?_, ?_⟩
  · rw [htake]
    exact List.length_take_le 5 _
  · apply List.pairwise_of_forall_mem_list
    intro x hx y hy
    rw [hpr x (hmem x hx), hpr y (hmem y hy)]
  · exact fun c hc => hpr c (hmem c hc)
  · intro va hva c hc
    exact collectCandidates_forall p text _
      (fun idx m c h => candidateOfMatch_validator p va hva idx m c h) c (hmem c hc)
  · intro h
    rw [htake, h]
    rfl

/-- Validator of the height pattern spec: `value > 0 && value <= 50`. -/
def hauteurValidator : JsVal → Bool
  | .num q => decide (0 < q ∧ q ≤ 50)
  | .str _ => false

/-- Transformer of the height pattern spec:
`parseFloat(value.replace(",", "."))`; a non-numeric capture gives `NaN`,
modelled by `none`. -/
def hauteurTransformer : JsVal → Option JsVal
  | .str s => (parseDec s).map JsVal.num
  | .num q => some (.num q)

/-- Concrete pattern spec mirroring `HAUTEUR_PATTERNS` restricted to its
first regex `/hauteur[^.]*?maximale?[^.]*?(\d+(?:[.,]\d+)?)\s*(?:mètres?|m\b)/gi`,
whose single match on the subject `"hauteur maximale de 12 mètres"` is the
whole phrase with captured group `"12"`. -/
def pC6 : ExtractionPattern := {
  name := "hauteur"
  patterns := [fun t =>
    if t = "hauteur maximale de 12 mètres" then
      [⟨"hauteur maximale de 12 mètres", some "12"⟩]
    else []]
  priority := 1
  validator := some hauteurValidator
  transformer := some hauteurTransformer }

/-- Witness for `C6_applyPattern_contract` at the concrete height pattern:
the validator hypothesis is discharged and the returned candidate value 12
is accepted by it. -/
theorem C6_applyPattern_contract_witness : hauteurValidator (JsVal.num 12) = true :=
  (C6_applyPattern_contract "hauteur maximale de 12 mètres" pC6).2.2.2.2.1
    hauteurValidator rfl
    ⟨JsVal.num 12, "hauteur maximale de 12 mètres", 0, 1⟩ (by decide)

/-! ## Orchestrator path lemmas -/

/-- Cache hit: `forceRefresh` unset, Redis up, entry present. -/
theorem extractFromPDF_cache_hit (pdfUrl zone : String) (opts : ExtractionOptions)
    (env : OrchestratorEnv) (c : DetailedPLUAnalysis)
    (hf : opts.forceRefresh = false) (hr : env.redisAvailable = true) :
    extractFromPDF pdfUrl zone opts env (some c) = ⟨.ok (c, .cache), false, some c⟩ := by
  unfold extractFromPDF
  rw [if_pos (by simp [hf, hr])]

/-- Zone section empty or shorter than 100 characters: the orchestrator
throws the zone-not-found error. -/
theorem extractFromPDF_zone_too_short (pdfUrl zone : String) (opts : ExtractionOptions)
    (env : OrchestratorEnv) (txt : String)
    (hpdf : env.pdfText = .ok txt)
    (hz : findZoneSection env.zoneMatches = "" ∨ (findZoneSection env.zoneMatches).length < 100) :
    extractFromPDF pdfUrl zone opts env none = ⟨.error (.zoneNotFound zone), false, none⟩ := by
  unfold extractFromPDF
  rw [ite_self]
  simp only [hpdf]
  rw [if_pos hz]

/-- Deterministic extraction completes: its result is returned as-is, the
generative fallback is not consulted, and the cache write is attempted
through the confidence gate. -/
theorem extractFromPDF_traditional_ok (pdfUrl zone : String) (opts : ExtractionOptions)
    (env : OrchestratorEnv) (txt : String) (a : DetailedPLUAnalysis)
    (hpdf : env.pdfText = .ok txt)
    (hz : ¬ (findZoneSection env.zoneMatches = "" ∨ (findZoneSection env.zoneMatches).length < 100))
    (ha : env.traditional (findZoneSection env.zoneMatches) = .ok a) :
    extractFromPDF pdfUrl zone opts env none =
      ⟨.ok (a, .traditional), false, cacheWriteGate env.redisAvailable a none⟩ := by
  unfold extractFromPDF
  rw [ite_self]
  simp only [hpdf]
  rw [if_neg hz]
  simp only [ha]

/-- Deterministic extraction throws and the generative path is enabled:
the fallback is invoked. -/
theorem extractFromPDF_traditional_error (pdfUrl zone : String) (opts : ExtractionOptions)
    (env : OrchestratorEnv) (txt : String) (e : String)
    (hpdf : env.pdfText = .ok txt)
    (hz : ¬ (findZoneSection env.zoneMatches = "" ∨ (findZoneSection env.zoneMatches).length < 100))
    (ha : env.traditional (findZoneSection env.zoneMatches) = .error e)
    (hai : opts.useAI ≠ some false) :
    (extractFromPDF pdfUrl zone opts env none).aiCalled = true := by
  unfold extractFromPDF
  rw [ite_self]
  simp only [hpdf]
  rw [if_neg hz]
  simp only [ha]
  rw [if_pos hai]
  cases env.aiExtract (findZoneSection env.zoneMatches) <;> rfl

/-! ## Claim C4 -/

/-- Claim C4, amended.  The orchestrator invokes the generative fallback
only when the deterministic extractor throws (and `useAI` is not `false`);
a deterministic extraction that completes is returned as-is regardless of
its confidence — a result below the 0.6 cache-write threshold is merely
not written to the cache, it is never escalated to the generative path. -/
theorem C4_fallback_only_on_throw (pdfUrl zone : String) (opts : ExtractionOptions)
    (env : OrchestratorEnv) (txt : String)
    (hpdf : env.pdfText = .ok txt)
    (hz : ¬ (findZoneSection env.zoneMatches = "" ∨ (findZoneSection env.zoneMatches).length < 100)) :
    (∀ a, env.traditional (findZoneSection env.zoneMatches) = .ok a →
       (extractFromPDF pdfUrl zone opts env none).result = .ok (a, .traditional) ∧
       (extractFromPDF pdfUrl zone opts env none).aiCalled = false) ∧
    (∀ e, env.traditional (findZoneSection env.zoneMatches) = .error e →
       opts.useAI ≠ some false →
       (extractFromPDF pdfUrl zone opts env none).aiCalled = true) := by
  constructor
  · intro a ha
    rw [extractFromPDF_traditional_ok pdfUrl zone opts env txt a hpdf hz ha]
    exact ⟨rfl, rfl⟩
  · intro e ha hai
    exact extractFromPDF_traditional_error pdfUrl zone opts env txt e hpdf hz ha hai

/-- A 201-character zone section, long enough for every length gate. -/
def longSection : String := String.mk (List.replicate 201 'a')

/-- Zone-locator oracle whose first heading pattern matched the long
section. -/
def zmLong : ZoneSectionMatches := ⟨[some longSection, none, none], []⟩

/-- Environment in which the deterministic extractor completes with the
all-null record (confidence 0): download and text extraction succeed, the
zone section is found, Redis is up, and the generative endpoint would
succeed if it were consulted. -/
def envTradOkEmpty : OrchestratorEnv := {
  redisAvailable := true
  pdfText := .ok "pdf text"
  zoneMatches := zmLong
  traditional := fun _ => .ok emptyAnalysis
  aiExtract := fun _ => .ok emptyAnalysis }

/-- Options of a plain request: no forced refresh, `useAI` not given
(hence the generative path is enabled, `options.useAI !== false`). -/
def optsPlain : ExtractionOptions := { forceRefresh := false, useAI := none }

set_option maxRecDepth 4000 in
theorem zmLong_ok :
    ¬ (findZoneSection zmLong = "" ∨ (findZoneSection zmLong).length < 100) := by
  decide

/-- Claim C4, counterexample.  The deterministic extraction completes with
confidence 0 — far below the 0.6 threshold — and the generative path is
enabled, yet the orchestrator returns the weak deterministic result
without ever invoking the generative fallback. -/
theorem C4_counterexample :
    emptyAnalysis.confidence < 3/5 ∧
    optsPlain.useAI ≠ some false ∧
    (extractFromPDF "u" "UB" optsPlain envTradOkEmpty none).result
      = .ok (emptyAnalysis, .traditional) ∧
    (extractFromPDF "u" "UB" optsPlain envTradOkEmpty none).aiCalled = false := by
  refine ⟨by norm_num [emptyAnalysis], by simp [optsPlain], ?_, ?_⟩ <;>
    rw [extractFromPDF_traditional_ok "u" "UB" optsPlain envTradOkEmpty "pdf text"
      emptyAnalysis rfl zmLong_ok rfl]

/-- Witness for `C4_fallback_only_on_throw` at the concrete environment:
the hypotheses hold and the deterministic result is returned with the
fallback not called. -/
theorem C4_fallback_only_on_throw_witness :
    (extractFromPDF "u" "UB" optsPlain envTradOkEmpty none).result
      = .ok (emptyAnalysis, .traditional) ∧
    (extractFromPDF "u" "UB" optsPlain envTradOkEmpty none).aiCalled = false :=
  (C4_fallback_only_on_throw "u" "UB" optsPlain envTradOkEmpty "pdf text" rfl
    zmLong_ok).1 emptyAnalysis rfl

/-! ## Claim C5 -/

theorem findZonePatternLoop_none (l : List (Option String))
    (h : ∀ m ∈ l, ∀ s, m = some s → s.length ≤ 200) : findZonePatternLoop l = none := by
  induction l with
  | nil => rfl
  | cons m rest ih =>
    cases m with
    | none => exact ih (fun x hx => h x (List.mem_cons_of_mem _ hx))
    | some s =>
      show (if 200 < s.length then some s else findZonePatternLoop rest) = none
      rw [if_neg (by have := h (some s) (List.mem_cons_self _ _) s rfl; omega)]
      exact ih (fun x hx => h x (List.mem_cons_of_mem _ hx))

/-- Claim C5, amended.  The zone locator returns the empty string when
none of the three heading strategies captures a span above the 200
character threshold and the article fallback finds no blocks; the fallback
itself returns whatever article blocks exist with no length threshold, so
a short fallback result is non-empty (see the counterexample).  The
orchestrator treats a section that is empty or shorter than 100 characters
as a failure: it throws the zone-not-found error, so it never returns a
successful record for a zone whose section could not be located. -/
theorem C5_zone_not_found (o : ZoneSectionMatches) (pdfUrl zone : String)
    (opts : ExtractionOptions) (env : OrchestratorEnv) (txt : String) :
    ((∀ m ∈ o.patternFirstMatches, ∀ s, m = some s → s.length ≤ 200) →
       o.articleMatches = [] → findZoneSection o = "") ∧
    (env.pdfText = .ok txt → (findZoneSection env.zoneMatches).length < 100 →
       (extractFromPDF pdfUrl zone opts env none).result = .error (.zoneNotFound zone)) := by
  constructor
  · intro hshort hart
    unfold findZoneSection
    rw [findZonePatternLoop_none o.patternFirstMatches hshort, hart]
    rfl
  · intro hpdf hlen
    rw [extractFromPDF_zone_too_short pdfUrl zone opts env txt hpdf (Or.inr hlen)]

/-- Zone-locator oracle for the subject text
`"Article UB1 hauteur dix metres maximum"` and zone `"UB"`: pattern 1
(`ZONE UB - ...`) and pattern 3 (`UB - ...`) find no match; pattern 2
(`/Article\s+UB\d+([\s\S]*?)(?=Article\s+(?!UB)|ZONE\s+|$)/gi`) matches
the whole 38-character text, which fails the 200-character gate; the
fallback regex `/Article\s+UB\d*[\s\S]*?(?=Article\s+(?!UB)|$)/gi` matches
the whole text, so the article list holds that single short block. -/
def oC5 : ZoneSectionMatches :=
  ⟨[none, some "Article UB1 hauteur dix metres maximum", none],
   ["Article UB1 hauteur dix metres maximum"]⟩

/-- Claim C5, counterexample.  With no strategy capturing a span above the
200-character minimum length threshold (the only captured span has 38
characters), `findZoneSection` does not return the empty string: the
article fallback returns the short block unconditionally. -/
theorem C5_counterexample :
    (∀ m ∈ oC5.patternFirstMatches, ∀ s, m = some s → s.length ≤ 200) ∧
    findZoneSection oC5 = "Article UB1 hauteur dix metres maximum" ∧
    "Article UB1 hauteur dix metres maximum" ≠ "" := by
  refine ⟨?_, by decide, by decide⟩
  intro m hm s hs
  fin_cases hm
  · cases hs
  · injection hs with hs
    rw [← hs]
    decide
  · cases hs

/-- Environment in which the zone section resolves to the short fallback
block of `oC5`. -/
def envC5 : OrchestratorEnv := {
  redisAvailable := false
  pdfText := .ok "pdf text"
  zoneMatches := oC5
  traditional := fun _ => .ok emptyAnalysis
  aiExtract := fun _ => .error "unavailable" }

/-- Witness for `C5_zone_not_found`: the all-miss locator oracle yields
the empty string, and the orchestrator fails with the zone-not-found
error on the short section of `envC5`. -/
theorem C5_zone_not_found_witness :
    findZoneSection ⟨[none, none, none], []⟩ = "" ∧
    (extractFromPDF "u" "UB" optsPlain envC5 none).result = .error (.zoneNotFound "UB") :=
  ⟨(C5_zone_not_found ⟨[none, none, none], []⟩ "u" "UB" optsPlain envC5 "pdf text").1
      (by intro m hm s hs; simp at hm; subst hm; cases hs) rfl,
   (C5_zone_not_found ⟨[none, none, none], []⟩ "u" "UB" optsPlain envC5 "pdf text").2
      rfl (by decide)⟩

/-! ## Claim C7 -/

/-- Download or text-extraction failure propagates. -/
theorem extractFromPDF_pdf_error (pdfUrl zone : String) (opts : ExtractionOptions)
    (env : OrchestratorEnv) (e : String) (hpdf : env.pdfText = .error e) :
    extractFromPDF pdfUrl zone opts env none = ⟨.error (.downloadOrText e), false, none⟩ := by
  unfold extractFromPDF
  rw [ite_self]
  simp only [hpdf]

/-- Deterministic failure with the generative path enabled: the outcome is
decided by the generative call. -/
theorem extractFromPDF_ai_result (pdfUrl zone : String) (opts : ExtractionOptions)
    (env : OrchestratorEnv) (txt : String) (e : String)
    (hpdf : env.pdfText = .ok txt)
    (hz : ¬ (findZoneSection env.zoneMatches = "" ∨ (findZoneSection env.zoneMatches).length < 100))
    (ha : env.traditional (findZoneSection env.zoneMatches) = .error e)
    (hai : opts.useAI ≠ some false) :
    extractFromPDF pdfUrl zone opts env none =
      match env.aiExtract (findZoneSection env.zoneMatches) with
      | .ok a2 => ⟨.ok (a2, .ai), true, cacheWriteGate env.redisAvailable a2 none⟩
      | .error _ => ⟨.error .bothMethodsFailed, true, none⟩ := by
  unfold extractFromPDF
  rw [ite_self]
  simp only [hpdf]
  rw [if_neg hz]
  simp only [ha]
  rw [if_pos hai]

/-- Deterministic failure with the generative path disabled: the
deterministic error is rethrown. -/
theorem extractFromPDF_no_ai (pdfUrl zone : String) (opts : ExtractionOptions)
    (env : OrchestratorEnv) (txt : String) (e : String)
    (hpdf : env.pdfText = .ok txt)
    (hz : ¬ (findZoneSection env.zoneMatches = "" ∨ (findZoneSection env.zoneMatches).length < 100))
    (ha : env.traditional (findZoneSection env.zoneMatches) = .error e)
    (hai : opts.useAI = some false) :
    extractFromPDF pdfUrl zone opts env none = ⟨.error (.traditionalFailed e), false, none⟩ := by
  unfold extractFromPDF
  rw [ite_self]
  simp only [hpdf]
  rw [if_neg hz]
  simp only [ha]
  rw [if_neg (by simp [hai])]

/-- Claim C7, amended.  With a cache store configured and
`forceRefresh = false`, two successive orchestrator calls with identical
inputs return the identical record with the second call served from the
cache, provided the first call succeeded with confidence above the 0.6
cache-write threshold; a result at or below the threshold is not written
to the cache and the second call re-runs extraction instead (see the
counterexample).  The JSON round-trip through the cache is modelled as
the identity on the record. -/
theorem C7_cache_roundtrip (pdfUrl zone : String) (opts : ExtractionOptions)
    (env : OrchestratorEnv) (a : DetailedPLUAnalysis) (m : ExtractionMethod)
    (hf : opts.forceRefresh = false) (hr : env.redisAvailable = true)
    (h1 : (extractTwice pdfUrl zone opts env).1.result = .ok (a, m))
    (hc : a.confidence > 3/5) :
    (extractTwice pdfUrl zone opts env).2.result = .ok (a, .cache) := by
  have hr1 : (extractTwice pdfUrl zone opts env).1 = extractFromPDF pdfUrl zone opts env none :=
    rfl
  rw [hr1] at h1
  have hcache : (extractFromPDF pdfUrl zone opts env none).cacheAfter = some a := by
    cases hpdf : env.pdfText with
    | error e =>
      rw [extractFromPDF_pdf_error pdfUrl zone opts env e hpdf] at h1
      exact absurd h1 (by simp)
    | ok txt =>
      by_cases hz : findZoneSection env.zoneMatches = ""
          ∨ (findZoneSection env.zoneMatches).length < 100
      · rw [extractFromPDF_zone_too_short pdfUrl zone opts env txt hpdf hz] at h1
        exact absurd h1 (by simp)
      · cases htr : env.traditional (findZoneSection env.zoneMatches) with
        | ok a2 =>
          rw [extractFromPDF_traditional_ok pdfUrl zone opts env txt a2 hpdf hz htr] at h1 ⊢
          have h1' : Except.ok (ε := OrchestratorError) (a2, ExtractionMethod.traditional)
              = .ok (a, m) := h1
          injection h1' with hp
          injection hp with ha2 hm
          show cacheWriteGate env.redisAvailable a2 none = some a
          unfold cacheWriteGate
          rw [if_pos ⟨hr, ha2 ▸ hc⟩, ha2]
        | error e =>
          by_cases hai : opts.useAI = some false
          · rw [extractFromPDF_no_ai pdfUrl zone opts env txt e hpdf hz htr hai] at h1
            exact absurd h1 (by simp)
          · rw [extractFromPDF_ai_result pdfUrl zone opts env txt e hpdf hz htr hai] at h1 ⊢
            cases hgen : env.aiExtract (findZoneSection env.zoneMatches) with
            | ok a2 =>
              rw [hgen] at h1
              have h1' : Except.ok (ε := OrchestratorError) (a2, ExtractionMethod.ai)
                  = .ok (a, m) := h1
              injection h1' with hp
              injection hp with ha2 hm
              show cacheWriteGate env.redisAvailable a2 none = some a
              unfold cacheWriteGate
              rw [if_pos ⟨hr, ha2 ▸ hc⟩, ha2]
            | error e2 =>
              rw [hgen] at h1
              exact absurd h1 (by simp)
  have h2 : (extractTwice pdfUrl zone opts env).2
      = extractFromPDF pdfUrl zone opts env
          ((extractFromPDF pdfUrl zone opts env none).cacheAfter) := rfl
  rw [h2, hcache, extractFromPDF_cache_hit pdfUrl zone opts env a hf hr]

set_option maxRecDepth 8000 in
/-- Claim C7, counterexample.  A cache store is configured and
`forceRefresh = false`, the two calls have identical inputs, but the first
result has confidence 0 — not above the 0.6 cache-write gate — so nothing
is cached and the second call is served by re-running the deterministic
extraction, not from the cache. -/
theorem C7_counterexample :
    envTradOkEmpty.redisAvailable = true ∧
    optsPlain.forceRefresh = false ∧
    (extractTwice "u" "UB" optsPlain envTradOkEmpty).2.result
      = .ok (emptyAnalysis, .traditional) ∧
    ExtractionMethod.traditional ≠ ExtractionMethod.cache := by
  refine ⟨rfl, rfl, ?_, by simp⟩
  have hgate : cacheWriteGate true emptyAnalysis none = none := by
    unfold cacheWriteGate
    rw [if_neg]
    intro hand
    have : emptyAnalysis.confidence > 3/5 := hand.2
    norm_num [emptyAnalysis] at this
  have h1 : (extractTwice "u" "UB" optsPlain envTradOkEmpty).1
      = ⟨.ok (emptyAnalysis, .traditional), false, cacheWriteGate true emptyAnalysis none⟩ := by
    show extractFromPDF "u" "UB" optsPlain envTradOkEmpty none = _
    rw [extractFromPDF_traditional_ok "u" "UB" optsPlain envTradOkEmpty "pdf text"
      emptyAnalysis rfl zmLong_ok rfl]
    rfl
  have h2 : (extractTwice "u" "UB" optsPlain envTradOkEmpty).2
      = extractFromPDF "u" "UB" optsPlain envTradOkEmpty
          ((extractTwice "u" "UB" optsPlain envTradOkEmpty).1.cacheAfter) := rfl
  rw [h2, h1]
  show (extractFromPDF "u" "UB" optsPlain envTradOkEmpty
    (cacheWriteGate true emptyAnalysis none)).result = _
  rw [hgate, extractFromPDF_traditional_ok "u" "UB" optsPlain envTradOkEmpty "pdf text"
    emptyAnalysis rfl zmLong_ok rfl]

/-- Record with confidence 0.7, above the cache-write threshold. -/
def highConfAnalysis : DetailedPLUAnalysis := { emptyAnalysis with confidence := 7/10 }

/-- Environment whose deterministic extraction succeeds with confidence
0.7. -/
def envTradOkHigh : OrchestratorEnv :=
  { envTradOkEmpty with traditional := fun _ => .ok highConfAnalysis }

set_option maxRecDepth 8000 in
/-- Witness for `C7_cache_roundtrip`: with a high-confidence first result
the second call returns the identical record served from the cache. -/
theorem C7_cache_roundtrip_witness :
    (extractTwice "u" "UB" optsPlain envTradOkHigh).2.result
      = .ok (highConfAnalysis, .cache) :=
  C7_cache_roundtrip "u" "UB" optsPlain envTradOkHigh highConfAnalysis .traditional rfl rfl
    (by
      rw [show (extractTwice "u" "UB" optsPlain envTradOkHigh).1
            = extractFromPDF "u" "UB" optsPlain envTradOkHigh none from rfl,
        extractFromPDF_traditional_ok "u" "UB" optsPlain envTradOkHigh "pdf text"
          highConfAnalysis rfl zmLong_ok rfl])
    (by norm_num [highConfAnalysis])

/-! ## Claim C8 -/

theorem extractZonesLoop_eq_filterMap (f : String → Except OrchestratorError DetailedPLUAnalysis)
    (zs : List String) :
    extractZonesLoop f zs = zs.filterMap (fun z => (f z).toOption) := by
  induction zs with
  | nil => rfl
  | cons z rest ih =>
    show (match f z with
      | .ok a => a :: extractZonesLoop f rest
      | .error _ => extractZonesLoop f rest) = _
    rw [List.filterMap_cons]
    cases hf : f z <;> simp [Except.toOption, ih]

theorem insertStr_perm (s : String) (l : List String) : List.Perm (insertStr s l) (s :: l) := by
  induction l with
  | nil => exact List.Perm.refl _
  | cons b t ih =>
    unfold insertStr
    split
    · exact (ih.cons b).trans (List.Perm.swap s b t)
    · exact List.Perm.refl _

theorem jsSortStrings_perm_aux :
    ∀ (l acc : List String),
      List.Perm (l.foldl (fun acc s => insertStr s acc) acc) (acc ++ l) := by
  intro l
  induction l with
  | nil => intro acc; simp
  | cons s t ih =>
    intro acc
    rw [List.foldl_cons]
    have step1 := ih (insertStr s acc)
    have step2 := (insertStr_perm s acc).append_right t
    have step3 : List.Perm ((s :: acc) ++ t) (acc ++ s :: t) := List.perm_middle.symm
    exact (step1.trans step2).trans step3

theorem jsSortStrings_perm (l : List String) : List.Perm (jsSortStrings l) l := by
  have := jsSortStrings_perm_aux l []
  rw [List.nil_append] at this
  exact this

theorem addZone_nodup (acc : List String) (m : String) (h : acc.Nodup) :
    (addZone acc m).Nodup := by
  unfold addZone
  split
  · split
    · exact h
    · rename_i hc
      rw [List.nodup_append]
      refine ⟨h, List.nodup_singleton _, ?_⟩
      intro x hx hx1
      rw [List.mem_singleton.mp hx1] at hx
      exact hc (List.elem_iff.mpr hx)
  · exact h

theorem addZone_mem (acc : List String) (m x : String) (hx : x ∈ addZone acc m) :
    x ∈ acc ∨ (x = upperStr m ∧ m.length ≤ 4) := by
  unfold addZone at hx
  split at hx
  · rename_i hcond
    split at hx
    · exact Or.inl hx
    · rcases List.mem_append.mp hx with h1 | h2
      · exact Or.inl h1
      · exact Or.inr ⟨List.mem_singleton.mp h2, hcond.2⟩
  · exact Or.inl hx

theorem upperStr_length (m : String) : (upperStr m).length = m.length := by
  show (m.data.map _).length = m.data.length
  rw [List.length_map]

theorem addedZones_invariant (ms : List String) :
    ∀ (acc : List String), acc.Nodup → (∀ z ∈ acc, z.length ≤ 4) →
      (ms.foldl addZone acc).Nodup ∧ (∀ z ∈ ms.foldl addZone acc, z.length ≤ 4) := by
  induction ms with
  | nil => intro acc h1 h2; exact ⟨h1, h2⟩
  | cons m rest ih =>
    intro acc h1 h2
    rw [List.foldl_cons]
    apply ih
    · exact addZone_nodup acc m h1
    · intro z hz
      rcases addZone_mem acc m z hz with h | ⟨he, hlen⟩
      · exact h2 z h
      · rw [he, upperStr_length]
        exact hlen

theorem detectAllZones_invariant (o : ZoneDetectMatches) :
    (detectAllZones o).Nodup ∧ (∀ z ∈ detectAllZones o, z.length ≤ 4) := by
  have hmain : ∀ (ls : List (List String)) (acc : List String),
      acc.Nodup → (∀ z ∈ acc, z.length ≤ 4) →
      (ls.foldl (fun acc ms => ms.foldl addZone acc) acc).Nodup ∧
      (∀ z ∈ ls.foldl (fun acc ms => ms.foldl addZone acc) acc, z.length ≤ 4) := by
    intro ls
    induction ls with
    | nil => intro acc h1 h2; exact ⟨h1, h2⟩
    | cons ms rest ih =>
      intro acc h1 h2
      rw [List.foldl_cons]
      obtain ⟨h1', h2'⟩ := addedZones_invariant ms acc h1 h2
      exact ih _ h1' h2'
  obtain ⟨h1, h2⟩ := hmain o.captures [] List.nodup_nil (by simp)
  have hperm := jsSortStrings_perm (o.captures.foldl (fun acc ms => ms.foldl addZone acc) [])
  unfold detectAllZones
  refine ⟨hperm.nodup_iff.mpr h1, ?_⟩
  intro z hz
  exact h2 z (hperm.mem_iff.mp hz)

/-- Claim C8.  When the document text extraction succeeds, the multi-zone
orchestrator runs the single-zone extraction once per detected zone code —
the detected codes are deduplicated (the returned list has no duplicate
codes) and filtered to at most 4 characters — and a per-zone failure is
skipped without aborting the batch: the returned list holds exactly the
records of the zones whose extraction succeeded, in order. -/
theorem C8_multi_zone (env : MultiZoneEnv) (txt : String) (hpdf : env.pdfText = .ok txt) :
    extractAllZones env
      = .ok ((detectAllZones env.detect).filterMap (fun z => (env.extractZone z).toOption)) ∧
    (detectAllZones env.detect).Nodup ∧
    (∀ z ∈ detectAllZones env.detect, z.length ≤ 4) := by
  refine ⟨?_, (detectAllZones_invariant env.detect).1, (detectAllZones_invariant env.detect).2⟩
  unfold extractAllZones
  rw [hpdf, extractZonesLoop_eq_filterMap]

/-- Detection oracle of the witness: captures `"UB"`, `"N"`, `"UB"` in
the first detection pattern (`"UB"` captured twice), nothing in the other
two. -/
def envC8 : MultiZoneEnv := {
  pdfText := .ok "doc text"
  detect := ⟨[["UB", "N", "UB"], [], []]⟩
  extractZone := fun z => if z = "N" then .error .bothMethodsFailed else .ok emptyAnalysis }

/-- Witness for `C8_multi_zone` at the concrete environment: the duplicate
`"UB"` is collapsed, the failing zone `"N"` is skipped without aborting,
and exactly one record is returned for the zone that succeeded. -/
theorem C8_multi_zone_witness :
    extractAllZones envC8 = .ok [emptyAnalysis] ∧ detectAllZones envC8.detect = ["N", "UB"] := by
  have h := C8_multi_zone envC8 "doc text" rfl
  refine ⟨?_, by decide⟩
  rw [h.1]
  rfl

end PLU
